import Mathlib

/-!
Shallow embedding of the PDF translation pipeline of `src/pdf_translator.py`
(repository euel88/law-chatbot), together with theorems settling the claims
about the data model, extractor, translator, renderer and orchestrator.

Conventions of the embedding:
* Python floats are modelled as rationals (`ℚ`); the arithmetic the claims
  touch (progress fractions, bounding boxes, font sizes) is exactly
  representable there.
* A Python dictionary used as a cache is an association list with
  most-recent-first lookup.
* `fitz` (PyMuPDF) objects are modelled by the fields the module reads:
  a page is its width/height, its `get_text("dict")` block structure and
  its embedded-image list; an embedded image is its decode outcome
  (`none` models `doc.extract_image`/`Image.open` raising) and its
  placement rectangles.
* Code that can raise is embedded in `Except String`; a `try/except`
  handler is an explicit match on the `Except` value.
* The OpenAI client is modelled as an optional backend function from the
  number of previously issued backend calls and the request text to an
  optional reply (`none` models the API call raising).  The call counter
  carried by `Translator` is instrumentation recording how many backend
  calls were issued; the Python object does not store it, but it is the
  observable trace the caching claims speak about.
-/

namespace PdfTranslator

/-- A rectangle `(x0, y0, x1, y1)` in page coordinates. -/
structure Rect where
  x0 : ℚ
  y0 : ℚ
  x1 : ℚ
  y1 : ℚ
deriving DecidableEq

/-- `TextBlock` dataclass of `pdf_translator.py` (lines 25-34). -/
structure TextBlock where
  text : String
  bbox : Rect
  page_num : ℕ
  font_name : String := ""
  font_size : ℚ := 11
  is_formula : Bool := false
  color : ℚ × ℚ × ℚ := (0, 0, 0)
deriving DecidableEq

/-- `ImageBlock` dataclass (lines 37-44); the decoded PIL image is modelled
by its pixel dimensions, the only attributes the module reads. -/
structure ImageBlock where
  width : ℕ
  height : ℕ
  bbox : Rect
  page_num : ℕ
  ocr_text : String := ""
  translated_text : String := ""
deriving DecidableEq

/-- One span of `page.get_text("dict")`: the fields `_process_text_block`
reads (`text`, `font`, `size`, `color`). -/
structure SpanDict where
  text : String
  font : String
  size : ℚ := 11
  color : ℕ := 0
deriving DecidableEq

/-- One line of the text dictionary: its optional bbox and its spans. -/
structure LineDict where
  bbox : Option Rect
  spans : List SpanDict
deriving DecidableEq

/-- One block of the text dictionary: its type tag (0 = text), bbox, lines. -/
structure BlockDict where
  btype : ℕ
  bbox : Rect := ⟨0, 0, 0, 0⟩
  lines : List LineDict
deriving DecidableEq

/-- One embedded raster image of a page: `decode = none` models
`doc.extract_image(xref)` / `Image.open` raising for this image,
`decode = some (w, h)` a successful decode to a `w × h` bitmap;
`rects` models `page.get_image_rects(xref)`. -/
structure ImgModel where
  decode : Option (ℕ × ℕ)
  rects : List Rect := []
deriving DecidableEq

/-- A page of an open `fitz.Document`, carrying exactly what the module
reads from it: geometry, text dictionary, embedded images. -/
structure SourcePage where
  width : ℚ
  height : ℚ
  textDict : List BlockDict := []
  images : List ImgModel := []
deriving DecidableEq

/-- Python `str.strip()`: drop leading and trailing whitespace. -/
def pyStrip (s : String) : String :=
  ⟨((s.toList.dropWhile Char.isWhitespace).reverse.dropWhile
      Char.isWhitespace).reverse⟩

/-- Python `str.lower()`. -/
def pyLower (s : String) : String :=
  ⟨s.toList.map Char.toLower⟩

/-- Python string slicing `s[:n]`. -/
def pyTake (s : String) (n : ℕ) : String :=
  ⟨s.toList.take n⟩

/-- `FORMULA_FONT_PATTERNS` (lines 51-55). -/
def FORMULA_FONT_PATTERNS : List String :=
  ["math", "symbol", "cmex", "cmsy", "cmmi", "cmr",
   "msam", "msbm", "eufm", "eurb", "eusb",
   "CMEX", "CMSY", "CMMI", "CMR"]

/-- `FORMULA_UNICODE_RANGES` (lines 58-63). -/
def FORMULA_UNICODE_RANGES : List (ℕ × ℕ) :=
  [(0x0370, 0x03FF), (0x2200, 0x22FF), (0x2100, 0x214F), (0x2190, 0x21FF)]

/-- Python's `needle in haystack` on strings. -/
def containsSub (haystack needle : String) : Bool :=
  decide (List.IsInfix needle.toList haystack.toList)

/-- `PDFTextExtractor.is_formula_font` (lines 68-76). -/
def is_formula_font (font_name : String) : Bool :=
  if font_name = "" then false
  else FORMULA_FONT_PATTERNS.any
    (fun p => containsSub (pyLower font_name) (pyLower p))

/-- `PDFTextExtractor.is_formula_char` (lines 78-86). -/
def is_formula_char (c : Char) : Bool :=
  FORMULA_UNICODE_RANGES.any
    (fun se => decide (se.1 ≤ c.toNat ∧ c.toNat ≤ se.2))

/-- Accumulator of the span loop of `_process_text_block` (lines 108-137). -/
structure LineAcc where
  line_text : String
  font_name : String
  font_size : ℚ
  is_formula : Bool
  color : ℚ × ℚ × ℚ
deriving DecidableEq

/-- One iteration of the span loop (lines 115-137): concatenate the span
text, overwrite font/size/color with the span's values, and set the
formula flag if the span's font or any of its characters matches. -/
def processSpan (preserve : Bool) (acc : LineAcc) (span : SpanDict) : LineAcc :=
  let r : ℕ := (span.color >>> 16) &&& 255
  let g : ℕ := (span.color >>> 8) &&& 255
  let b : ℕ := span.color &&& 255
  { line_text := acc.line_text ++ span.text
    font_name := span.font
    font_size := span.size
    is_formula :=
      if preserve then
        if is_formula_font span.font then true
        else if span.text.toList.any is_formula_char then true
        else acc.is_formula
      else acc.is_formula
    color := ((r : ℚ) / 255, (g : ℚ) / 255, (b : ℚ) / 255) }

/-- The per-line body of `_process_text_block` (lines 108-149): fold the
spans, and emit a `TextBlock` when the trimmed line text is non-empty. -/
def processLine (preserve : Bool) (block_bbox : Rect) (page_num : ℕ)
    (line : LineDict) : Option TextBlock :=
  let acc := line.spans.foldl (processSpan preserve)
    { line_text := "", font_name := "", font_size := 11,
      is_formula := false, color := (0, 0, 0) }
  if pyStrip acc.line_text ≠ "" then
    some { text := pyStrip acc.line_text
           bbox := line.bbox.getD block_bbox
           page_num := page_num
           font_name := acc.font_name
           font_size := acc.font_size
           is_formula := acc.is_formula
           color := acc.color }
  else none

/-- `PDFTextExtractor._process_text_block` (lines 102-149). -/
def _process_text_block (preserve : Bool) (block : BlockDict)
    (page_num : ℕ) : List TextBlock :=
  block.lines.filterMap (processLine preserve block.bbox page_num)

/-- `PDFTextExtractor.extract_text_blocks` (lines 88-100): walk every page,
keep the type-0 blocks, process each. -/
def extract_text_blocks (preserve : Bool) (doc : List SourcePage) :
    List TextBlock :=
  doc.enum.flatMap (fun pi =>
    (pi.2.textDict.filter (fun b => b.btype == 0)).flatMap
      (fun b => _process_text_block preserve b pi.1))

/-- The body of the per-image `try:` of `extract_images` (lines 163-187):
decode (may raise), drop the image when a side is below `min_size`
(`.ok none`), otherwise build the `ImageBlock` with the first placement
rectangle, falling back to pixel dimensions. -/
def imageTryBody (page_num : ℕ) (img : ImgModel) (min_size : ℕ) :
    Except String (Option ImageBlock) :=
  match img.decode with
  | none => .error "image decode failed"
  | some wh =>
    if wh.1 < min_size ∨ wh.2 < min_size then .ok none
    else
      let bbox : Rect :=
        match img.rects with
        | r :: _ => r
        | [] => ⟨0, 0, (wh.1 : ℚ), (wh.2 : ℚ)⟩
      .ok (some { width := wh.1, height := wh.2, bbox := bbox,
                  page_num := page_num })

/-- The image loop of one page: each image's try body runs under
`Except.tryCatch`, whose handler (the `except` clause, lines 188-189)
logs and skips the image; any error escaping the catch would propagate. -/
def extractImagesPage (page_num : ℕ) (imgs : List ImgModel)
    (min_size : ℕ) : Except String (List ImageBlock) :=
  match imgs with
  | [] => .ok []
  | img :: rest =>
    match Except.tryCatch (imageTryBody page_num img min_size)
        (fun _ => .ok none) with
    | .error e => .error e
    | .ok r =>
      match extractImagesPage page_num rest min_size with
      | .error e => .error e
      | .ok tail =>
        match r with
        | some b => .ok (b :: tail)
        | none => .ok tail

/-- The page loop of `extract_images` over the enumerated pages. -/
def extractImagesGo (min_size : ℕ) :
    List (ℕ × SourcePage) → Except String (List ImageBlock)
  | [] => .ok []
  | pi :: rest =>
    match extractImagesPage pi.1 pi.2.images min_size with
    | .error e => .error e
    | .ok here =>
      match extractImagesGo min_size rest with
      | .error e => .error e
      | .ok there => .ok (here ++ there)

/-- `PDFTextExtractor.extract_images` (lines 151-191). -/
def extract_images (doc : List SourcePage) (min_size : ℕ) :
    Except String (List ImageBlock) :=
  extractImagesGo min_size doc.enum

/-- `OCRProcessor` (lines 194-226): `backend = none` models
`TESSERACT_AVAILABLE = False`; `recognize w h = none` models
`pytesseract.image_to_string` raising on a `w × h` bitmap. -/
structure OCRProcessor where
  lang : String := "kor+eng"
  backend : Option (ℕ → ℕ → Option String)

/-- `OCRProcessor.process_image` (lines 201-216): unavailable or failing
OCR degrades to the empty string, success is trimmed. -/
def process_image (o : OCRProcessor) (w h : ℕ) : String :=
  match o.backend with
  | none => ""
  | some recognize =>
    match recognize w h with
    | some s => pyStrip s
    | none => ""

/-- `OCRProcessor.process_images` (lines 218-226). -/
def process_images (o : OCRProcessor) (imgs : List ImageBlock) :
    List ImageBlock :=
  match o.backend with
  | none => imgs
  | some _ => imgs.map
      (fun img => { img with ocr_text := process_image o img.width img.height })

/-- `Translator` (lines 229-237).  `client = none` models
`openai_client = None`; a configured client is a backend function from the
number of previously issued backend calls and the request text to `none`
(the API call raises) or `some reply`.  `cache` is the translation cache
dictionary, `calls` the instrumented count of backend calls issued. -/
structure Translator where
  client : Option (ℕ → String → Option String)
  source_lang : String := "en"
  target_lang : String := "ko"
  cache : List (String × String) := []
  calls : ℕ := 0

/-- `cache_key = f"{source_lang}_{target_lang}_{text}"` (line 245). -/
def cacheKey (t : Translator) (text : String) : String :=
  t.source_lang ++ "_" ++ t.target_lang ++ "_" ++ text

/-- Python dictionary lookup on the association-list cache. -/
def lookupCache : List (String × String) → String → Option String
  | [], _ => none
  | (k, v) :: rest, key => if k = key then some v else lookupCache rest key

/-- `Translator.translate_text` (lines 239-283): blank text is returned
unchanged; then the cache is consulted; with no client the text is
returned unchanged; otherwise the backend is invoked — on success the
trimmed reply is cached and returned, on failure (exception) the original
text is returned and nothing is cached. -/
def translate_text (t : Translator) (text : String) : String × Translator :=
  if text = "" ∨ pyStrip text = "" then (text, t)
  else
    let key := cacheKey t text
    match lookupCache t.cache key with
    | some v => (v, t)
    | none =>
      match t.client with
      | none => (text, t)
      | some backend =>
        match backend t.calls text with
        | some reply =>
          (pyStrip reply,
           { t with cache := (key, pyStrip reply) :: t.cache,
                    calls := t.calls + 1 })
        | none => (text, { t with calls := t.calls + 1 })

/-- `Translator.translate_blocks` (lines 285-302): formula blocks are
paired with their own text without touching the translator; other blocks
are paired with `translate_text` of their text, threading the cache. -/
def translate_blocks (t : Translator) :
    List TextBlock → List (TextBlock × String) × Translator
  | [] => ([], t)
  | b :: rest =>
    if b.is_formula then
      let tail := translate_blocks t rest
      ((b, b.text) :: tail.1, tail.2)
    else
      let tr := translate_text t b.text
      let tail := translate_blocks tr.2 rest
      ((b, tr.1) :: tail.1, tail.2)

/-- `Translator.translate_images` (lines 304-316): images with non-empty
`ocr_text` get `translated_text` set via `translate_text`. -/
def translate_images (t : Translator) :
    List ImageBlock → List ImageBlock × Translator
  | [] => ([], t)
  | img :: rest =>
    if img.ocr_text ≠ "" then
      let tr := translate_text t img.ocr_text
      let tail := translate_images tr.2 rest
      ({ img with translated_text := tr.1 } :: tail.1, tail.2)
    else
      let tail := translate_images t rest
      (img :: tail.1, tail.2)

/-- One drawing operation recorded on an output page. -/
inductive RenderOp where
  /-- `new_page.show_pdf_page(new_page.rect, source_doc, page_num)` -/
  | showSource (page_num : ℕ)
  /-- `page.draw_rect(rect, color=…, fill=…)` -/
  | fillRect (rect : Rect) (color fill : ℚ × ℚ × ℚ)
  /-- `_insert_text`: translated text drawn into the block rectangle
  at the adjusted font size -/
  | insertText (rect : Rect) (text : String) (fontsize : ℚ)
  /-- image-caption textbox of `_add_image_translations` -/
  | caption (rect : Rect) (text : String)
deriving DecidableEq

/-- A page of the output document: geometry from `output_doc.new_page`,
plus the sequence of drawing operations performed on it. -/
structure RenderedPage where
  width : ℚ
  height : ℚ
  ops : List RenderOp
deriving DecidableEq

/-- `PDFRenderer._insert_text` (lines 411-454): the adjusted font size is
`max (min font_size (0.8 * height)) 6`; the internal TextWriter /
`insert_text` / `insert_textbox` fallbacks all draw the same text into the
same rectangle, recorded as one `insertText` operation. -/
def insert_text_ops (rect : Rect) (text : String) (font_size : ℚ) :
    List RenderOp :=
  let adjusted := max (min font_size ((rect.y1 - rect.y0) * (4 / 5))) 6
  [RenderOp.insertText rect text adjusted]

/-- `PDFRenderer._overlay_translations` (lines 366-388): skip blocks of
other pages, formula blocks, and blocks whose translated text equals the
original; erase the bbox with white and draw the translated text. -/
def _overlay_translations (translated_blocks : List (TextBlock × String))
    (page_num : ℕ) : List RenderOp :=
  translated_blocks.flatMap (fun bt =>
    if bt.1.page_num ≠ page_num then []
    else if bt.1.is_formula then []
    else if bt.1.text = bt.2 then []
    else
      RenderOp.fillRect bt.1.bbox (1, 1, 1) (1, 1, 1) ::
        insert_text_ops bt.1.bbox bt.2 bt.1.font_size)

/-- `PDFRenderer._replace_with_translations` (lines 390-409): skip blocks
of other pages and formula blocks; erase the bbox with white and draw the
translated text (no unchanged-text skip). -/
def _replace_with_translations (translated_blocks : List (TextBlock × String))
    (page_num : ℕ) : List RenderOp :=
  translated_blocks.flatMap (fun bt =>
    if bt.1.page_num ≠ page_num then []
    else if bt.1.is_formula then []
    else
      RenderOp.fillRect bt.1.bbox (1, 1, 1) (1, 1, 1) ::
        insert_text_ops bt.1.bbox bt.2 bt.1.font_size)

/-- `PDFRenderer._add_image_translations` (lines 456-488): a shaded
caption box below each image of this page with non-empty translated
text. -/
def _add_image_translations (images : List ImageBlock) (page_num : ℕ) :
    List RenderOp :=
  images.flatMap (fun img =>
    if img.page_num ≠ page_num then []
    else if img.translated_text = "" then []
    else
      let captionRect : Rect :=
        ⟨img.bbox.x0, img.bbox.y1 + 2, img.bbox.x1, img.bbox.y1 + 30⟩
      [RenderOp.fillRect captionRect (9/10, 9/10, 9/10) (19/20, 19/20, 19/20),
       RenderOp.caption captionRect
         ("[OCR 번역] " ++ pyTake img.translated_text 100 ++ "...")])

/-- `PDFRenderer.create_translated_pdf` (lines 333-364): for every source
page, a new page of identical width/height; the original page content is
shown onto it; then the overlay or replace pass runs; then, when the
translated-image list is non-empty (Python `if translated_images:`), the
image captions. -/
def create_translated_pdf (source_doc : List SourcePage)
    (translated_blocks : List (TextBlock × String))
    (translated_images : List ImageBlock)
    (overlay_mode : Bool := true) : List RenderedPage :=
  source_doc.enum.map (fun pi =>
    { width := pi.2.width
      height := pi.2.height
      ops :=
        RenderOp.showSource pi.1 ::
          ((if overlay_mode then
              _overlay_translations translated_blocks pi.1
            else
              _replace_with_translations translated_blocks pi.1) ++
           (if translated_images ≠ [] then
              _add_image_translations translated_images pi.1
            else [])) })

/-- `total_steps = 4 if translate_images else 3` (line 520). -/
def totalSteps (translate_images_flag : Bool) : ℚ :=
  if translate_images_flag then 4 else 3

/-- The fractions emitted during the text-translation stage (lines
536-545): the `0.3` announcement followed by `update_progress((idx+1)/n)`
per block, i.e. `(1 + (idx+1)/n) / total_steps` (`step = 1`), present only
when text translation runs on a non-empty block list. -/
def progressBlockPart (translate_text_flag translate_images_flag : Bool)
    (n : ℕ) : List ℚ :=
  if translate_text_flag ∧ n ≠ 0 then
    3/10 :: (List.range n).map
      (fun i : ℕ => (1 + ((i : ℚ) + 1) / (n : ℚ)) /
        totalSteps translate_images_flag)
  else []

/-- The fractions emitted during the image stage (lines 550-564): the
`0.5` and `0.6` announcements followed by `(2 + (idx+1)/m) / total_steps`
per image (`step = 2`), present only when `translate_images` is set. -/
def progressImagePart (translate_images_flag : Bool) (m : ℕ) : List ℚ :=
  if translate_images_flag then
    1/2 :: 3/5 :: (List.range m).map
      (fun i : ℕ => (2 + ((i : ℚ) + 1) / (m : ℚ)) /
        totalSteps translate_images_flag)
  else []

/-- The sequence of progress fractions `translate_pdf` (lines 507-584)
passes to a supplied progress callback, in execution order, as a function
of the flags, the number `n` of extracted text blocks and the number `m`
of extracted images: the `0.1` announcement, the text-translation stage,
the image stage, then the `0.8` announcement and the final `1.0`. -/
def progressTrace (translate_text_flag translate_images_flag : Bool)
    (n m : ℕ) : List ℚ :=
  1/10 :: (progressBlockPart translate_text_flag translate_images_flag n ++
    progressImagePart translate_images_flag m ++ [4/5, 1])

/-- `PDFTranslator` (lines 491-505): the orchestrator's components; the
extractor is constructed with `preserve_formulas=True`. -/
structure PDFTranslator where
  translator : Translator
  ocr_processor : OCRProcessor

/-- The observable outcome of a successful `translate_pdf` run: the
rendered output document (whose serialization `tobytes` returns), the
(block, translated text) pairs and translated images used for rendering,
the emitted progress fractions, and the final translator state. -/
structure PdfResult where
  output : List RenderedPage
  translated_blocks : List (TextBlock × String)
  translated_images : List ImageBlock
  progress : List ℚ
  translator : Translator

/-- `PDFTranslator.translate_pdf` (lines 507-584) on an opened document:
extract text blocks; translate them when `translate_text_flag` is set and
the list is non-empty, otherwise pair each block with its own text; when
`translate_images_flag` is set, extract images (propagating a fatal
extractor error), OCR them and translate the OCR text; render with
`overlay_mode = true` (the call site uses the default); emit the progress
trace.  On the success path the source and output documents are closed
(see `translate_pdf_close_trace` for the exception paths). -/
def translate_pdf (pt : PDFTranslator) (doc : List SourcePage)
    (translate_text_flag translate_images_flag : Bool) :
    Except String PdfResult :=
  let text_blocks := extract_text_blocks true doc
  let tb :=
    if translate_text_flag ∧ text_blocks ≠ [] then
      translate_blocks pt.translator text_blocks
    else
      (text_blocks.map (fun b => (b, b.text)), pt.translator)
  let imgPart : Except String (List ImageBlock × Translator × ℕ) :=
    if translate_images_flag then
      match extract_images doc 50 with
      | .ok imgs =>
        let imgs1 := process_images pt.ocr_processor imgs
        let it := translate_images tb.2 imgs1
        .ok (it.1, it.2, imgs1.length)
      | .error e => .error e
    else .ok ([], tb.2, 0)
  match imgPart with
  | .error e => .error e
  | .ok itm =>
    .ok { output := create_translated_pdf doc tb.1 itm.1 true
          translated_blocks := tb.1
          translated_images := itm.1
          progress := progressTrace translate_text_flag translate_images_flag
            text_blocks.length itm.2.2
          translator := itm.2.1 }

/-- Control-flow skeleton of `translate_pdf` (lines 507-584) for resource
release.  Each argument states whether the corresponding stage completes
normally (`true`) or raises (`false`); the result is
`(completed, source_doc_closed, output_doc_closed)`.  In the source,
`doc.close()` and `output_doc.close()` (lines 578-579) run only after
`output_doc.tobytes()`; there is no `try/finally`, so an exception in any
stage exits the function with both documents still open. -/
def translate_pdf_close_trace (extract_ok translate_ok render_ok
    tobytes_ok : Bool) : Bool × Bool × Bool :=
  if extract_ok then
    if translate_ok then
      if render_ok then
        if tobytes_ok then (true, true, true)
        else (false, false, false)
      else (false, false, false)
    else (false, false, false)
  else (false, false, false)

/-! ## Helper lemmas -/

/-- Output pages of `create_translated_pdf` copy the source page
dimensions one-for-one. -/
theorem create_translated_pdf_dims (source_doc : List SourcePage)
    (translated_blocks : List (TextBlock × String))
    (translated_images : List ImageBlock) (overlay_mode : Bool) :
    (create_translated_pdf source_doc translated_blocks translated_images
        overlay_mode).map (fun p => (p.width, p.height)) =
      source_doc.map (fun p => (p.width, p.height)) := by
  unfold create_translated_pdf
  rw [List.map_map]
  conv_rhs => rw [← List.enum_map_snd source_doc, List.map_map]
  rfl

/-- The per-image outcome of `extract_images` after the catch: `none` when
the image failed to decode (exception, skipped) or was filtered out by the
size check, `some` block otherwise. -/
def imageCaught (page_num min_size : ℕ) (img : ImgModel) :
    Option ImageBlock :=
  match imageTryBody page_num img min_size with
  | .ok ob => ob
  | .error _ => none

theorem extractImagesPage_eq_ok (page_num : ℕ) (imgs : List ImgModel)
    (min_size : ℕ) :
    extractImagesPage page_num imgs min_size =
      .ok (imgs.filterMap (imageCaught page_num min_size)) := by
  induction imgs with
  | nil => rfl
  | cons img rest ih =>
    cases h : imageTryBody page_num img min_size with
    | ok ob =>
      cases ob <;>
        simp [extractImagesPage, Except.tryCatch, h, ih, List.filterMap_cons,
          imageCaught]
    | error e =>
      simp [extractImagesPage, Except.tryCatch, h, ih, List.filterMap_cons,
        imageCaught]

theorem extractImagesGo_eq_ok (min_size : ℕ) (l : List (ℕ × SourcePage)) :
    extractImagesGo min_size l =
      .ok (l.flatMap
        (fun pi => pi.2.images.filterMap (imageCaught pi.1 min_size))) := by
  induction l with
  | nil => rfl
  | cons pi rest ih =>
    simp [extractImagesGo, extractImagesPage_eq_ok, ih]

/-- `extract_images` always returns normally, with the caught-and-filtered
images of every page in order. -/
theorem extract_images_eq_ok (doc : List SourcePage) (min_size : ℕ) :
    extract_images doc min_size =
      .ok (doc.enum.flatMap
        (fun pi => pi.2.images.filterMap (imageCaught pi.1 min_size))) :=
  extractImagesGo_eq_ok min_size doc.enum

/-- A failing image is invisible to `filterMap (imageCaught _ _)`. -/
theorem filterMap_imageCaught_filter (page_num min_size : ℕ)
    (imgs : List ImgModel) :
    (imgs.filter (fun i => i.decode.isSome)).filterMap
        (imageCaught page_num min_size) =
      imgs.filterMap (imageCaught page_num min_size) := by
  induction imgs with
  | nil => rfl
  | cons img rest ih =>
    cases h : img.decode with
    | none =>
      simp [List.filter_cons, List.filterMap_cons, h, imageCaught,
        imageTryBody, ih]
    | some wh =>
      simp [List.filter_cons, List.filterMap_cons, h, ih]

/-! ## Claims -/

/-- C1: for every list of TextBlocks and every block in it with
`is_formula = true`, `Translator.translate_blocks` pairs that block with
exactly its own original text, and processing a formula block leaves the
translator (cache and backend-call count) untouched — no backend call is
made for it, for any translator state and backend whatsoever. -/
theorem translate_blocks_formula_preserved (t : Translator)
    (blocks : List TextBlock) :
    (∀ p ∈ (translate_blocks t blocks).1,
        p.1.is_formula = true → p.2 = p.1.text) ∧
    (∀ b : TextBlock, b.is_formula = true →
      translate_blocks t (b :: blocks) =
        ((b, b.text) :: (translate_blocks t blocks).1,
          (translate_blocks t blocks).2)) := by
  constructor
  · induction blocks generalizing t with
    | nil => intro p hp; simp [translate_blocks] at hp
    | cons b rest ih =>
      intro p hp hf
      by_cases hb : b.is_formula = true
      · simp only [translate_blocks, hb, if_true] at hp
        rcases List.mem_cons.mp hp with h | h
        · rw [h]
        · exact ih t p h hf
      · simp only [translate_blocks, hb, if_false] at hp
        rcases List.mem_cons.mp hp with h | h
        · rw [h] at hf; exact absurd hf hb
        · exact ih _ p h hf
  · intro b hb
    simp only [translate_blocks, hb, if_true]

/-- A concrete formula block: the `"α+β"` CMMI10 line of the spec's
formula-font scenario. -/
def formulaBlockEx : TextBlock :=
  { text := "α+β", bbox := ⟨0, 0, 10, 10⟩, page_num := 0,
    font_name := "CMMI10", is_formula := true }

/-- A translator with a configured, text-transforming backend. -/
def upperBackendTranslator : Translator :=
  { client := some (fun _ s => some (String.append "TRANSLATED " s)) }

/-- Witness for C1: the concrete formula block run through
`translate_blocks` with a configured backend keeps its own text. -/
theorem translate_blocks_formula_preserved_witness :
    ((formulaBlockEx, formulaBlockEx.text)).2 =
      ((formulaBlockEx, formulaBlockEx.text)).1.text :=
  (translate_blocks_formula_preserved upperBackendTranslator
      [formulaBlockEx]).1
    (formulaBlockEx, formulaBlockEx.text)
    (by simp [translate_blocks, formulaBlockEx]) rfl

/-- C2: for every source document of N pages with dimensions (wᵢ, hᵢ), the
document produced by `PDFRenderer.create_translated_pdf` has exactly N
pages and page i has dimensions (wᵢ, hᵢ), for every set of translated
blocks and images and both rendering modes. -/
theorem create_translated_pdf_geometry (source_doc : List SourcePage)
    (translated_blocks : List (TextBlock × String))
    (translated_images : List ImageBlock) (overlay_mode : Bool) :
    (create_translated_pdf source_doc translated_blocks translated_images
        overlay_mode).map (fun p => (p.width, p.height)) =
      source_doc.map (fun p => (p.width, p.height)) :=
  create_translated_pdf_dims source_doc translated_blocks translated_images
    overlay_mode

/-- C5 (code defect evidence): the close trace of `translate_pdf`.  When
every stage completes, both documents are closed; but when rendering (or
any earlier stage, or serialization) raises, the function exits without
closing either document — `doc.close()`/`output_doc.close()` sit after
`tobytes()` with no `try/finally`, contradicting the required release on
every code path. -/
theorem close_trace_exception_leaks :
    translate_pdf_close_trace true true false true = (false, false, false) ∧
    translate_pdf_close_trace true true true true = (true, true, true) := by
  decide

/-- A non-formula block whose translated text equals the original. -/
def unchangedBlockEx : TextBlock :=
  { text := "hello", bbox := ⟨0, 0, 10, 10⟩, page_num := 0 }

/-- C7 counterexample: a non-formula block whose translated text equals
the original is skipped by the overlay pass but erased-and-redrawn by the
replace pass, so the two modes do not redraw the same set of blocks. -/
theorem overlay_replace_differ_cex :
    _overlay_translations [(unchangedBlockEx, "hello")] 0 = [] ∧
    _replace_with_translations [(unchangedBlockEx, "hello")] 0 ≠ [] := by
  constructor <;>
    simp [_overlay_translations, _replace_with_translations,
      unchangedBlockEx, insert_text_ops]

/-- C7 (amended): the two rendering passes have identical mechanics —
both skip formula blocks and blocks of other pages — except that only the
overlay pass skips blocks whose translated text equals the original: on
every block list in which no block's translated text equals its original,
the two passes emit exactly the same operations. -/
theorem overlay_eq_replace_when_changed
    (translated_blocks : List (TextBlock × String)) (page_num : ℕ)
    (h : ∀ bt ∈ translated_blocks, bt.1.text ≠ bt.2) :
    _overlay_translations translated_blocks page_num =
      _replace_with_translations translated_blocks page_num := by
  induction translated_blocks with
  | nil => rfl
  | cons bt rest ih =>
    have h1 : bt.1.text ≠ bt.2 := h bt (List.mem_cons_self _ _)
    have h2 : ∀ x ∈ rest, x.1.text ≠ x.2 :=
      fun x hx => h x (List.mem_cons_of_mem _ hx)
    simp only [_overlay_translations, _replace_with_translations] at ih ⊢
    simp [h1]
    simpa using ih h2

/-- Witness for C7's amended theorem: a concrete changed block is redrawn
identically by the two passes. -/
def changedBlockEx : TextBlock :=
  { text := "hello", bbox := ⟨0, 0, 10, 10⟩, page_num := 0 }

theorem overlay_eq_replace_when_changed_witness :
    _overlay_translations [(changedBlockEx, "안녕")] 0 =
      _replace_with_translations [(changedBlockEx, "안녕")] 0 :=
  overlay_eq_replace_when_changed [(changedBlockEx, "안녕")] 0
    (by simp [changedBlockEx])

/-- The document with every failing-to-decode image deleted. -/
def dropFailingImages (doc : List SourcePage) : List SourcePage :=
  doc.map (fun p =>
    { p with images := p.images.filter (fun i => i.decode.isSome) })

/-- C8: for every document, an individual image whose decode raises is
skipped — the extractor's result is unchanged when failing images are
deleted from the document — the remaining images are still extracted, and
no exception propagates out of `extract_images` (it always returns
`Except.ok`). -/
theorem extract_images_failure_tolerant (doc : List SourcePage)
    (min_size : ℕ) :
    (∃ l, extract_images doc min_size = Except.ok l) ∧
    extract_images doc min_size =
      extract_images (dropFailingImages doc) min_size := by
  refine ⟨⟨_, extract_images_eq_ok doc min_size⟩, ?_⟩
  rw [extract_images_eq_ok, extract_images_eq_ok]
  rw [dropFailingImages, List.enum_map]
  rw [List.flatMap_map]
  refine congrArg Except.ok
    (congrArg (List.flatMap doc.enum) (funext fun pi => ?_))
  exact (filterMap_imageCaught_filter pi.1 min_size pi.2.images).symm

/-- A document whose only embedded image decodes to 10×10 px. -/
def tinyImageDoc : List SourcePage :=
  [{ width := 100, height := 100, images := [{ decode := some (10, 10) }] }]

/-- Evaluation of the caught per-image outcome: failing decode. -/
theorem imageCaught_none (page_num min_size : ℕ) (img : ImgModel)
    (hd : img.decode = none) :
    imageCaught page_num min_size img = none := by
  unfold imageCaught imageTryBody
  rw [hd]

/-- Evaluation of the caught per-image outcome: successful decode. -/
theorem imageCaught_some (page_num min_size : ℕ) (img : ImgModel)
    (wh : ℕ × ℕ) (hd : img.decode = some wh) :
    imageCaught page_num min_size img =
      (if wh.1 < min_size ∨ wh.2 < min_size then none
       else some { width := wh.1, height := wh.2,
                   bbox := match img.rects with
                     | r :: _ => r
                     | [] => ⟨0, 0, (wh.1 : ℚ), (wh.2 : ℚ)⟩,
                   page_num := page_num }) := by
  unfold imageCaught imageTryBody
  rw [hd]
  by_cases hsz : wh.1 < min_size ∨ wh.2 < min_size <;> simp [hsz]

/-- C9: every image block returned by `extract_images` has both decoded
dimensions at least `min_size` — images with a side strictly below
`min_size` are excluded; in particular, a document whose only image is
10×10 px yields an empty list at `min_size = 50`. -/
theorem extract_images_min_size_filter (doc : List SourcePage)
    (min_size : ℕ) (l : List ImageBlock)
    (h : extract_images doc min_size = Except.ok l) :
    (∀ b ∈ l, min_size ≤ b.width ∧ min_size ≤ b.height) ∧
    extract_images tinyImageDoc 50 = Except.ok [] := by
  constructor
  · rw [extract_images_eq_ok] at h
    intro b hb
    rw [← Except.ok.inj h] at hb
    simp only [List.mem_flatMap, List.mem_filterMap] at hb
    obtain ⟨pi, _, img, _, hc⟩ := hb
    cases hd : img.decode with
    | none => rw [imageCaught_none _ _ _ hd] at hc; simp at hc
    | some wh =>
      rw [imageCaught_some _ _ _ _ hd] at hc
      by_cases hsz : wh.1 < min_size ∨ wh.2 < min_size
      · rw [if_pos hsz] at hc; simp at hc
      · rw [if_neg hsz] at hc
        push_neg at hsz
        have hbe := Option.some.inj hc
        subst hbe
        simpa using hsz
  · rfl

/-- Witness for C9: a document with a single 60×60 image at
`min_size = 50` — the returned block's dimensions are at least 50. -/
def bigImageDoc : List SourcePage :=
  [{ width := 100, height := 100, images := [{ decode := some (60, 60) }] }]

def bigImageBlock : ImageBlock :=
  { width := 60, height := 60, bbox := ⟨0, 0, 60, 60⟩, page_num := 0 }

theorem extract_images_min_size_filter_witness :
    50 ≤ bigImageBlock.width ∧ 50 ≤ bigImageBlock.height :=
  (extract_images_min_size_filter bigImageDoc 50 [bigImageBlock]
      (by rfl)).1 bigImageBlock (by simp)

/-! ## Evaluation lemmas for `translate_text`, one per source branch -/

/-- Blank input (line 241-242): returned unchanged, state untouched. -/
theorem translate_text_blank (t : Translator) (text : String)
    (hb : text = "" ∨ pyStrip text = "") :
    translate_text t text = (text, t) := by
  simp [translate_text, hb]

/-- Cache hit (lines 245-247): cached value returned, state untouched. -/
theorem translate_text_hit (t : Translator) (text v : String)
    (hb : ¬(text = "" ∨ pyStrip text = ""))
    (hl : lookupCache t.cache (cacheKey t text) = some v) :
    translate_text t text = (v, t) := by
  simp only [translate_text]
  rw [if_neg hb, hl]

/-- No client (lines 249-250): returned unchanged, state untouched. -/
theorem translate_text_noclient (sl tl : String)
    (ch : List (String × String)) (ca : ℕ) (text : String)
    (hb : ¬(text = "" ∨ pyStrip text = ""))
    (hl : lookupCache ch (sl ++ "_" ++ tl ++ "_" ++ text) = none) :
    translate_text ⟨none, sl, tl, ch, ca⟩ text =
      (text, ⟨none, sl, tl, ch, ca⟩) := by
  simp only [translate_text, cacheKey]
  rw [if_neg hb, hl]

/-- Backend invocation (lines 252-283): on a cache miss with a configured
client, the backend is called once; a successful reply is trimmed, cached
and returned, a raising call returns the original text and caches
nothing. -/
theorem translate_text_backend (be : ℕ → String → Option String)
    (sl tl : String) (ch : List (String × String)) (ca : ℕ) (text : String)
    (hb : ¬(text = "" ∨ pyStrip text = ""))
    (hl : lookupCache ch (sl ++ "_" ++ tl ++ "_" ++ text) = none) :
    translate_text ⟨some be, sl, tl, ch, ca⟩ text =
      match be ca text with
      | some reply =>
        (pyStrip reply,
         ⟨some be, sl, tl,
          (sl ++ "_" ++ tl ++ "_" ++ text, pyStrip reply) :: ch, ca + 1⟩)
      | none => (text, ⟨some be, sl, tl, ch, ca + 1⟩) := by
  simp only [translate_text, cacheKey]
  rw [if_neg hb, hl]

/-! ## Claims about the translation cache -/

/-- A translator whose backend raises on every call. -/
def failingBackendTranslator : Translator :=
  { client := some (fun _ _ => none) }

/-- C3 counterexample: with a backend whose call raises (`none`), the
failed first call caches nothing, so a second call with the same text
reaches the backend again — two backend calls are issued where the claim
allows at most one. -/
theorem translate_text_two_backend_calls_cex :
    ¬ ((translate_text (translate_text failingBackendTranslator "hello").2
          "hello").2.calls ≤ failingBackendTranslator.calls + 1) := by
  decide

/-- C3 (amended): provided the backend invocation (if one happens) during
the first call succeeds, calling `translate_text` twice with the same text
issues at most one backend call, both calls return identical output, and
the second call leaves the translator state unchanged — it is served from
the cache keyed by `source_lang ++ "_" ++ target_lang ++ "_" ++ text`. -/
theorem translate_text_cached_second_call (t : Translator) (text : String)
    (hsucc : ∀ be, t.client = some be → be t.calls text ≠ none) :
    (translate_text t text).1 =
      (translate_text (translate_text t text).2 text).1 ∧
    (translate_text (translate_text t text).2 text).2 =
      (translate_text t text).2 ∧
    (translate_text (translate_text t text).2 text).2.calls ≤
      t.calls + 1 := by
  by_cases hb : text = "" ∨ pyStrip text = ""
  · have e := translate_text_blank t text hb
    refine ⟨?_, ?_, ?_⟩ <;> simp [e]
  · obtain ⟨cl, sl, tl, ch, ca⟩ := t
    cases hl : lookupCache ch (sl ++ "_" ++ tl ++ "_" ++ text) with
    | some v =>
      have e := translate_text_hit (⟨cl, sl, tl, ch, ca⟩ : Translator)
        text v hb hl
      refine ⟨?_, ?_, ?_⟩ <;> simp [e]
    | none =>
      cases cl with
      | none =>
        have e := translate_text_noclient sl tl ch ca text hb hl
        refine ⟨?_, ?_, ?_⟩ <;> simp [e]
      | some be =>
        cases hrep : be ca text with
        | none => exact absurd hrep (hsucc be rfl)
        | some reply =>
          have e1 := translate_text_backend be sl tl ch ca text hb hl
          rw [hrep] at e1
          have hl2 : lookupCache
              ((sl ++ "_" ++ tl ++ "_" ++ text, pyStrip reply) :: ch)
              (sl ++ "_" ++ tl ++ "_" ++ text) = some (pyStrip reply) := by
            simp [lookupCache]
          have e2 := translate_text_hit
            (⟨some be, sl, tl,
              (sl ++ "_" ++ tl ++ "_" ++ text, pyStrip reply) :: ch,
              ca + 1⟩ : Translator) text (pyStrip reply) hb hl2
          refine ⟨?_, ?_, ?_⟩ <;> simp [e1, e2]

/-- Witness for C3's amended theorem: a concrete translator with a
reliable backend — the repeated call returns the first result and issues
at most one backend call. -/
theorem translate_text_cached_second_call_witness :
    (translate_text upperBackendTranslator "Article 1").1 =
      (translate_text (translate_text upperBackendTranslator "Article 1").2
        "Article 1").1 ∧
    (translate_text (translate_text upperBackendTranslator "Article 1").2
        "Article 1").2.calls ≤ upperBackendTranslator.calls + 1 :=
  ⟨(translate_text_cached_second_call upperBackendTranslator "Article 1"
      (fun be h => by
        injection h with h
        subst h
        simp)).1,
   (translate_text_cached_second_call upperBackendTranslator "Article 1"
      (fun be h => by
        injection h with h
        subst h
        simp)).2.2⟩

/-- C10: a translation-backend failure is never cached — when the backend
raises on a non-blank, uncached text, `translate_text` returns the
original text with the cache unchanged (only the call counter moves), so
an immediately repeated call issues a fresh backend call (two backend
calls in total); only successful translations are memoized. -/
theorem translate_text_failure_not_cached (t : Translator) (text : String)
    (be : ℕ → String → Option String)
    (hblank : ¬(text = "" ∨ pyStrip text = ""))
    (hmiss : lookupCache t.cache (cacheKey t text) = none)
    (hcl : t.client = some be)
    (hfail : be t.calls text = none) :
    translate_text t text = (text, { t with calls := t.calls + 1 }) ∧
    (translate_text (translate_text t text).2 text).2.calls =
      t.calls + 2 := by
  obtain ⟨cl, sl, tl, ch, ca⟩ := t
  obtain rfl : cl = some be := hcl
  have h1 : translate_text ⟨some be, sl, tl, ch, ca⟩ text =
      (text, ⟨some be, sl, tl, ch, ca + 1⟩) := by
    rw [translate_text_backend be sl tl ch ca text hblank hmiss, hfail]
  refine ⟨h1, ?_⟩
  have h2 := translate_text_backend be sl tl ch (ca + 1) text hblank hmiss
  cases hrep2 : be (ca + 1) text with
  | some reply =>
    rw [hrep2] at h2
    simp only [h1, h2]
  | none =>
    rw [hrep2] at h2
    simp only [h1, h2]

/-- Witness for C10: a concrete failing backend on the text `"hello"` —
the first call returns the input with only the call counter bumped, and
the repetition issues a second backend call. -/
theorem translate_text_failure_not_cached_witness :
    translate_text failingBackendTranslator "hello" =
      ("hello", { failingBackendTranslator with calls := 1 }) ∧
    (translate_text (translate_text failingBackendTranslator "hello").2
        "hello").2.calls = 2 :=
  translate_text_failure_not_cached failingBackendTranslator "hello"
    (fun _ _ => none) (by decide) (by rfl) (by rfl) (by rfl)

/-! ## Fail-open orchestration -/

/-- With no client and an empty cache, `translate_text` is the identity on
both the text and the translator state. -/
theorem translate_text_id_of_none (t : Translator) (hcl : t.client = none)
    (hcache : t.cache = []) (s : String) :
    translate_text t s = (s, t) := by
  by_cases hb : s = "" ∨ pyStrip s = ""
  · exact translate_text_blank t s hb
  · obtain ⟨cl, sl, tl, ch, ca⟩ := t
    obtain rfl : cl = none := hcl
    obtain rfl : ch = [] := hcache
    exact translate_text_noclient sl tl [] ca s hb rfl

/-- When `translate_text` is the identity, `translate_blocks` pairs every
block with its own text and leaves the translator untouched. -/
theorem translate_blocks_id (t : Translator)
    (hid : ∀ s, translate_text t s = (s, t)) (blocks : List TextBlock) :
    translate_blocks t blocks =
      (blocks.map (fun b => (b, b.text)), t) := by
  induction blocks with
  | nil => rfl
  | cons b rest ih =>
    by_cases hf : b.is_formula = true
    · simp only [translate_blocks, hf, if_true, ih, List.map_cons]
    · simp only [translate_blocks, hf, if_false, hid b.text, ih,
        List.map_cons]
      simp

/-- `translate_pdf` always returns normally (the only fatal stage,
image extraction, is total), with the translated blocks, the rendered
output and the progress trace determined by its stages. -/
theorem translate_pdf_ok (pt : PDFTranslator) (doc : List SourcePage)
    (ttf tif : Bool) :
    ∃ r, translate_pdf pt doc ttf tif = Except.ok r ∧
      r.translated_blocks =
        (if ttf = true ∧ extract_text_blocks true doc ≠ [] then
          translate_blocks pt.translator (extract_text_blocks true doc)
        else ((extract_text_blocks true doc).map (fun b => (b, b.text)),
          pt.translator)).1 ∧
      r.output = create_translated_pdf doc r.translated_blocks
        r.translated_images true ∧
      ∃ n m, r.progress = progressTrace ttf tif n m := by
  cases tif with
  | false =>
    exact ⟨_, rfl, rfl, rfl, _, _, rfl⟩
  | true =>
    unfold translate_pdf
    rw [extract_images_eq_ok doc 50]
    exact ⟨_, rfl, rfl, rfl, _, _, rfl⟩

/-- C4: when no translation backend is configured (`client = None`, fresh
empty cache), `translate_text` returns its input unchanged for every
input, and `translate_pdf` still returns normally with an output document
of the same page count and dimensions as the input, in which every
TextBlock's translated pairing equals its original text. -/
theorem no_backend_fail_open (pt : PDFTranslator)
    (hcl : pt.translator.client = none)
    (hcache : pt.translator.cache = []) :
    (∀ s, translate_text pt.translator s = (s, pt.translator)) ∧
    (∀ doc ttf tif, ∃ r, translate_pdf pt doc ttf tif = Except.ok r ∧
      r.output.map (fun p => (p.width, p.height)) =
        doc.map (fun p => (p.width, p.height)) ∧
      ∀ p ∈ r.translated_blocks, p.2 = p.1.text) := by
  have hid := translate_text_id_of_none pt.translator hcl hcache
  refine ⟨hid, ?_⟩
  intro doc ttf tif
  obtain ⟨r, hr, htb, hout, -⟩ := translate_pdf_ok pt doc ttf tif
  refine ⟨r, hr, ?_, ?_⟩
  · rw [hout]
    exact create_translated_pdf_dims doc r.translated_blocks
      r.translated_images true
  · intro p hp
    rw [htb] at hp
    by_cases hc : ttf = true ∧ extract_text_blocks true doc ≠ []
    · rw [if_pos hc, translate_blocks_id pt.translator hid] at hp
      simp only [List.mem_map] at hp
      obtain ⟨b, -, rfl⟩ := hp
      rfl
    · rw [if_neg hc] at hp
      simp only [List.mem_map] at hp
      obtain ⟨b, -, rfl⟩ := hp
      rfl

/-- Witness inputs for the orchestrator claims: a backendless pipeline and
a small two-page document with one text line per page. -/
def noClientPT : PDFTranslator :=
  { translator := { client := none }, ocr_processor := { backend := none } }

def twoPageDoc : List SourcePage :=
  [{ width := 595, height := 842,
     textDict := [{ btype := 0, bbox := ⟨0, 0, 100, 20⟩,
                    lines := [{ bbox := some ⟨0, 0, 100, 20⟩,
                                spans := [{ text := "Hello world",
                                            font := "Arial" }] }] }] },
   { width := 595, height := 842,
     textDict := [{ btype := 0, bbox := ⟨0, 0, 100, 20⟩,
                    lines := [{ bbox := none,
                                spans := [{ text := "Second page",
                                            font := "Arial" }] }] }] }]

/-- Witness for C4: the backendless pipeline at a concrete text. -/
theorem no_backend_fail_open_witness :
    translate_text noClientPT.translator "제1조 (목적)" =
      ("제1조 (목적)", noClientPT.translator) :=
  (no_backend_fail_open noClientPT rfl rfl).1 "제1조 (목적)"

/-! ## Progress-trace lemmas -/

theorem progressTrace_split (tt ti : Bool) (n m : ℕ) :
    progressTrace tt ti n m =
      (1/10 :: (progressBlockPart tt ti n ++ progressImagePart ti m ++
        [4/5])) ++ [1] := by
  simp [progressTrace, List.cons_append, List.append_assoc]

theorem progressBlockPart_bounds (tt ti : Bool) (n : ℕ) :
    ∀ x ∈ progressBlockPart tt ti n, 0 ≤ x ∧ x < 1 := by
  intro x hx
  unfold progressBlockPart at hx
  by_cases hcond : tt = true ∧ n ≠ 0
  · rw [if_pos hcond] at hx
    rcases List.mem_cons.mp hx with rfl | hx2
    · norm_num
    · simp only [List.mem_map, List.mem_range] at hx2
      obtain ⟨i, hi, rfl⟩ := hx2
      have hn : (0:ℚ) < (n:ℚ) := by
        exact_mod_cast Nat.pos_of_ne_zero hcond.2
      have hp1 : ((i:ℚ) + 1) / (n:ℚ) ≤ 1 := by
        rw [div_le_one hn]; exact_mod_cast hi
      have hp0 : 0 ≤ ((i:ℚ) + 1) / (n:ℚ) := by positivity
      have hT3 : (3:ℚ) ≤ totalSteps ti := by
        cases ti <;> norm_num [totalSteps]
      have hT0 : (0:ℚ) < totalSteps ti := by linarith
      constructor
      · positivity
      · rw [div_lt_one hT0]; linarith
  · rw [if_neg hcond] at hx
    exact absurd hx (List.not_mem_nil x)

theorem progressImagePart_bounds (ti : Bool) (m : ℕ) :
    ∀ x ∈ progressImagePart ti m, 0 ≤ x ∧ x < 1 := by
  intro x hx
  unfold progressImagePart at hx
  by_cases hcond : ti = true
  · subst hcond
    rw [if_pos rfl] at hx
    have hT : totalSteps true = 4 := rfl
    rcases List.mem_cons.mp hx with rfl | hx2
    · norm_num
    · rcases List.mem_cons.mp hx2 with rfl | hx3
      · norm_num
      · simp only [List.mem_map, List.mem_range] at hx3
        obtain ⟨i, hi, rfl⟩ := hx3
        have hm : (0:ℚ) < (m:ℚ) := by
          exact_mod_cast Nat.lt_of_le_of_lt (Nat.zero_le i) hi
        have hp1 : ((i:ℚ) + 1) / (m:ℚ) ≤ 1 := by
          rw [div_le_one hm]; exact_mod_cast hi
        have hp0 : 0 ≤ ((i:ℚ) + 1) / (m:ℚ) := by positivity
        rw [hT]
        constructor
        · positivity
        · rw [div_lt_one (by norm_num)]; linarith
  · rw [if_neg hcond] at hx
    exact absurd hx (List.not_mem_nil x)

theorem progressTrace_front_lt_one (tt ti : Bool) (n m : ℕ) :
    ∀ x ∈ (1:ℚ)/10 :: (progressBlockPart tt ti n ++
        progressImagePart ti m ++ [4/5]), 0 ≤ x ∧ x < 1 := by
  intro x hx
  rcases List.mem_cons.mp hx with rfl | hx
  · norm_num
  · rcases List.mem_append.mp hx with hx | hx
    · rcases List.mem_append.mp hx with hx | hx
      · exact progressBlockPart_bounds tt ti n x hx
      · exact progressImagePart_bounds ti m x hx
    · have : x = 4/5 := by simpa using hx
      subst this
      norm_num

theorem progressTrace_mem_bounds (tt ti : Bool) (n m : ℕ) :
    ∀ x ∈ progressTrace tt ti n m, 0 ≤ x ∧ x ≤ 1 := by
  intro x hx
  rw [progressTrace_split] at hx
  rcases List.mem_append.mp hx with hx | hx
  · have h := progressTrace_front_lt_one tt ti n m x hx
    exact ⟨h.1, le_of_lt h.2⟩
  · have : x = 1 := by simpa using hx
    subst this
    norm_num

theorem progressTrace_getLast (tt ti : Bool) (n m : ℕ) :
    (progressTrace tt ti n m).getLast? = some 1 := by
  rw [progressTrace_split]
  exact List.getLast?_concat _

theorem progressTrace_dropLast_lt_one (tt ti : Bool) (n m : ℕ) :
    ∀ x ∈ (progressTrace tt ti n m).dropLast, x < 1 := by
  rw [progressTrace_split, List.dropLast_concat]
  intro x hx
  exact (progressTrace_front_lt_one tt ti n m x hx).2

theorem progressTrace_chain_no_images (tt : Bool) (n m : ℕ) :
    List.Chain' (· ≤ ·) (progressTrace tt false n m) := by
  unfold progressTrace progressBlockPart progressImagePart
  rw [if_neg (by simp : ¬(false = true))]
  simp only [List.append_nil]
  by_cases hcond : tt = true ∧ n ≠ 0
  · rw [if_pos hcond]
    obtain ⟨k, hk⟩ := Nat.exists_eq_succ_of_ne_zero hcond.2
    subst hk
    have hT : totalSteps false = 3 := rfl
    rw [hT]
    have hk0 : (0:ℚ) < ((k:ℚ) + 1) := by positivity
    rw [List.cons_append]
    refine List.chain'_cons.mpr ⟨by norm_num, ?_⟩
    refine List.chain'_cons'.mpr ⟨?_, ?_⟩
    · intro y hy
      rw [List.range_succ_eq_map, List.map_cons, List.cons_append,
        List.head?_cons, Option.mem_some_iff] at hy
      obtain rfl := hy
      have h0 : (0:ℚ) ≤ 1 / ((k:ℚ) + 1) := by positivity
      push_cast
      rw [le_div_iff₀ (by norm_num : (0:ℚ) < 3)]
      linarith
    · refine List.chain'_append.mpr ⟨?_, ?_, ?_⟩
      · rw [List.chain'_map, List.chain'_range_succ]
        intro j hj
        push_cast
        rw [div_le_div_iff_of_pos_right (by norm_num : (0:ℚ) < 3)]
        have h2 : ((j:ℚ) + 1) / ((k:ℚ) + 1) ≤
            ((j:ℚ) + 1 + 1) / ((k:ℚ) + 1) := by
          rw [div_le_div_iff_of_pos_right hk0]
          linarith
        linarith
      · norm_num [List.chain'_cons]
      · intro x hx y hy
        simp only [List.head?_cons, Option.mem_some_iff] at hy
        obtain rfl := hy
        rw [List.getLast?_map, List.range_succ, List.getLast?_concat,
          Option.map_some', Option.mem_some_iff] at hx
        obtain rfl := hx
        have hself : ((k:ℚ) + 1) / ((k:ℚ) + 1) = 1 :=
          div_self (ne_of_gt hk0)
        push_cast
        rw [hself]
        norm_num
  · rw [if_neg hcond]
    norm_num [List.chain'_cons]

/-- C6 (amended): across any single invocation of `translate_pdf`, every
progress fraction passed to the callback lies in [0,1], the final emitted
fraction is 1.0 and no earlier fraction equals 1.0; when
`translate_images` is off the sequence is monotonically increasing — but
with `translate_images` on it need not be monotone, because the fixed
stage announcements (0.3, 0.6) can exceed the following per-item
fractions computed with `total_steps = 4`. -/
theorem translate_pdf_progress (pt : PDFTranslator) (doc : List SourcePage)
    (ttf tif : Bool) (r : PdfResult)
    (h : translate_pdf pt doc ttf tif = Except.ok r) :
    (∀ x ∈ r.progress, 0 ≤ x ∧ x ≤ 1) ∧
    r.progress.getLast? = some 1 ∧
    (∀ x ∈ r.progress.dropLast, x < 1) ∧
    (tif = false → List.Chain' (· ≤ ·) r.progress) := by
  obtain ⟨r', hr', -, -, n, m, hp⟩ := translate_pdf_ok pt doc ttf tif
  rw [hr'] at h
  obtain rfl := Except.ok.inj h
  rw [hp]
  refine ⟨progressTrace_mem_bounds ttf tif n m,
          progressTrace_getLast ttf tif n m,
          progressTrace_dropLast_lt_one ttf tif n m, ?_⟩
  intro htif
  subst htif
  exact progressTrace_chain_no_images ttf n m

/-- The emitted progress fractions of a `translate_pdf` outcome. -/
def progressOf (e : Except String PdfResult) : List ℚ :=
  match e with
  | .ok r => r.progress
  | .error _ => []

/-- A one-page document with six plain text lines and no images. -/
def sixLineDoc : List SourcePage :=
  [{ width := 595, height := 842,
     textDict := [{ btype := 0, bbox := ⟨0, 0, 100, 120⟩,
                    lines := [
                      { bbox := some ⟨0, 0, 100, 20⟩,
                        spans := [{ text := "line one", font := "Arial" }] },
                      { bbox := some ⟨0, 20, 100, 40⟩,
                        spans := [{ text := "line two", font := "Arial" }] },
                      { bbox := some ⟨0, 40, 100, 60⟩,
                        spans := [{ text := "line three", font := "Arial" }] },
                      { bbox := some ⟨0, 60, 100, 80⟩,
                        spans := [{ text := "line four", font := "Arial" }] },
                      { bbox := some ⟨0, 80, 100, 100⟩,
                        spans := [{ text := "line five", font := "Arial" }] },
                      { bbox := some ⟨0, 100, 100, 120⟩,
                        spans := [{ text := "line six", font := "Arial" }] }] }] }]

/-- C6 counterexample: with `translate_images = true` and six text blocks,
the trace announces 0.3 and then emits `(1 + 1/6)/4 = 7/24 < 3/10` — the
fractions passed to the callback are not monotonically increasing. -/
theorem translate_pdf_progress_not_monotone_cex :
    ¬ List.Chain' (· ≤ ·)
      (progressOf (translate_pdf noClientPT sixLineDoc true true)) := by
  have h : progressOf (translate_pdf noClientPT sixLineDoc true true) =
      progressTrace true true 6 0 := by rfl
  rw [h]
  norm_num [progressTrace, progressBlockPart, progressImagePart,
    totalSteps, List.range_succ, List.chain'_cons]

/-- A total projection of a `translate_pdf` outcome, defaulting on the
(unreachable) error case. -/
def resOf (e : Except String PdfResult) : PdfResult :=
  match e with
  | .ok r => r
  | .error _ =>
    { output := [], translated_blocks := [], translated_images := [],
      progress := [], translator := { client := none } }

/-- Witness for C6's amended theorem: a concrete invocation whose final
emitted fraction is 1.0. -/
theorem translate_pdf_progress_witness :
    (resOf (translate_pdf noClientPT twoPageDoc true false)).progress.getLast?
      = some 1 :=
  (translate_pdf_progress noClientPT twoPageDoc true false
    (resOf (translate_pdf noClientPT twoPageDoc true false)) rfl).2.1

end PdfTranslator
